import Mathlib

/-!
Shallow embedding of the cloud-compliance-scanner backend
(`backend/scanner/checks.py`, `backend/main.py`, `backend/database.py`).

External GCP API calls are modelled as explicit inputs: each listing call
(`list_buckets`, `FirewallsClient.list`, `get_iam_policy`, ...) is passed in
as an `Except Unit _` value, where `.error ()` models a raised `Forbidden`,
`GoogleCloudError`, or any other exception at that call site — every
`except` arm of the Python code catches all three uniformly wherever the code
treats them alike, so one error token suffices.  Python string operations are
embedded as character-list functions so that everything evaluates inside the
kernel.
-/

/-- List-of-characters version of the substring test used to state facts
about finding descriptions ("mentions port 22"). -/
def containsSubL (sub : List Char) : List Char → Bool
  | [] => sub.isEmpty
  | c :: cs => sub.isPrefixOf (c :: cs) || containsSubL sub cs

/-- String wrapper for `containsSubL`. -/
def strContainsSub (s sub : String) : Bool :=
  containsSubL sub.toList s.toList

/-- Python `str.lower` on an ASCII character (the protocols compared in
`check_firewall_rules` are ASCII identifiers such as "TCP"). -/
def lowerChar (c : Char) : Char :=
  if 'A' ≤ c ∧ c ≤ 'Z' then Char.ofNat (c.toNat + 32) else c

/-- Python `str.lower` (ASCII). -/
def lowerStr (s : String) : String :=
  String.mk (s.toList.map lowerChar)

/-- A finding dictionary as built by every check in `checks.py`:
keys `resource_type`, `resource_id`, `finding_description`, `status`,
`gcp_project_id`. -/
structure Finding where
  resource_type : String
  resource_id : String
  finding_description : String
  status : String
  gcp_project_id : String
deriving DecidableEq, Repr

/-- An IAM policy binding: one role granted to a list of member strings. -/
structure Binding where
  role : String
  members : List String
deriving DecidableEq, Repr

/-- A storage bucket as seen by `check_public_buckets`: its name and the
result of `bucket.get_iam_policy(requested_policy_version=3)` (which may
raise; `.error ()` models that). -/
structure Bucket where
  name : String
  policy : Except Unit (List Binding)

/-- Body of the per-bucket loop of `check_public_buckets` (checks.py lines
28-55): on a policy fetch error the bucket is skipped; otherwise `is_public`
is set when some binding grants `roles/storage.objectViewer` or
`roles/storage.legacyObjectReader` to `allUsers` or `allAuthenticatedUsers`
(the `break` on the first match only short-circuits the scan — the bucket
still contributes at most the one finding appended after the loop). -/
def bucketPublicFinding (project_id : String) (bucket : Bucket) : List Finding :=
  match bucket.policy with
  | .error _ => []
  | .ok bindings =>
    let is_public := bindings.any (fun binding =>
      (binding.role == "roles/storage.objectViewer" ||
       binding.role == "roles/storage.legacyObjectReader") &&
      (binding.members.contains "allUsers" ||
       binding.members.contains "allAuthenticatedUsers"))
    if is_public then
      [⟨"Bucket", bucket.name,
        "Bucket is publicly accessible via \x27allUsers\x27 or \x27allAuthenticatedUsers\x27.",
        "NonCompliant", project_id⟩]
    else []

/-- `check_public_buckets` (checks.py lines 10-71): listing failure of any
kind returns the empty list; otherwise the findings of all buckets in
listing order. -/
def check_public_buckets (project_id : String)
    (buckets : Except Unit (List Bucket)) : List Finding :=
  match buckets with
  | .error _ => []
  | .ok bs => bs.flatMap (bucketPublicFinding project_id)

/-- C1: a bucket whose policy contains the binding
`{role: roles/storage.objectViewer, members: [allUsers]}` yields exactly one
finding; a bucket whose policy holds only
`{role: roles/storage.objectViewer, members: [user:alice@example.com]}`
yields zero; and every bucket yields at most one finding even when several
bindings grant public access. -/
theorem c1_public_bucket_rule :
    (∀ project_id name bindings,
      (⟨"roles/storage.objectViewer", ["allUsers"]⟩ : Binding) ∈ bindings →
      (bucketPublicFinding project_id ⟨name, .ok bindings⟩).length = 1) ∧
    check_public_buckets "proj-1"
      (.ok [⟨"bucket-b",
        .ok [⟨"roles/storage.objectViewer", ["user:alice@example.com"]⟩]⟩]) = [] ∧
    (∀ project_id bucket, (bucketPublicFinding project_id bucket).length ≤ 1) := by
  refine ⟨?_, by decide, ?_⟩
  · intro project_id name bindings hmem
    have hex : ∃ x ∈ bindings,
        (x.role = "roles/storage.objectViewer" ∨
         x.role = "roles/storage.legacyObjectReader") ∧
        ("allUsers" ∈ x.members ∨ "allAuthenticatedUsers" ∈ x.members) :=
      ⟨_, hmem, Or.inl rfl, Or.inl (by simp)⟩
    simp [bucketPublicFinding, hex]
  · intro project_id bucket
    rcases bucket with ⟨name, policy⟩
    cases policy with
    | error e => simp [bucketPublicFinding]
    | ok bindings =>
      simp only [bucketPublicFinding]
      split <;> simp

/-- C1 witness: the first conjunct applied at a concrete public bucket. -/
theorem c1_public_bucket_rule_witness :
    (bucketPublicFinding "proj-1"
      ⟨"bucket-a", .ok [⟨"roles/storage.objectViewer", ["allUsers"]⟩]⟩).length = 1 :=
  c1_public_bucket_rule.1 "proj-1" "bucket-a" _ (by decide)

/-- Firewall direction (`compute_v1.Firewall.Direction`). -/
inductive Direction where
  | INGRESS
  | EGRESS
deriving DecidableEq, Repr

/-- One allow-entry of a firewall rule (`rule.allowed` element). -/
structure Allowed where
  ip_protocol : String
  ports : List String
deriving DecidableEq, Repr

/-- A firewall rule descriptor as read by `check_firewall_rules`. -/
structure FirewallRule where
  name : String
  direction : Direction
  disabled : Bool
  source_ranges : List String
  allowed : List Allowed
deriving DecidableEq, Repr

/-- `ports_to_check = {"22", "3389"}` (checks.py line 87). -/
def ports_to_check : List String := ["22", "3389"]

/-- `ports_to_check.intersection(set(allowed.ports))` — same membership;
the Python value is an unordered set, modelled here in `ports_to_check`
order. -/
def portIntersection (entryPorts : List String) : List String :=
  ports_to_check.filter (fun p => entryPorts.contains p)

/-- The first allow-entry whose lower-cased protocol is tcp or udp and whose
ports overlap the sensitive set; the loop in checks.py lines 101-116
`break`s out after appending a finding for the first such entry. -/
def matchingAllowed (allowedList : List Allowed) : Option Allowed :=
  allowedList.find? (fun a =>
    (lowerStr a.ip_protocol == "tcp" || lowerStr a.ip_protocol == "udp") &&
    !(portIntersection a.ports).isEmpty)

/-- The f-string of checks.py line 111, with the joined port set. -/
def firewallDescription (matched : List String) : String :=
  "Rule allows ingress from 0.0.0.0/0 on sensitive ports: " ++
    String.intercalate ", " matched ++ "."

/-- Body of the per-rule loop of `check_firewall_rules` (lines 94-116):
enabled ingress rule with 0.0.0.0/0 in its source ranges, one finding for
the first matching allow-entry. -/
def firewallRuleFinding (project_id : String) (rule : FirewallRule) : List Finding :=
  if rule.direction == Direction.INGRESS && !rule.disabled &&
      rule.source_ranges.contains "0.0.0.0/0" then
    match matchingAllowed rule.allowed with
    | some a =>
      [⟨"FirewallRule", rule.name, firewallDescription (portIntersection a.ports),
        "NonCompliant", project_id⟩]
    | none => []
  else []

/-- `check_firewall_rules` (checks.py lines 74-128): listing failure of any
kind returns the empty list. -/
def check_firewall_rules (project_id : String)
    (firewalls : Except Unit (List FirewallRule)) : List Finding :=
  match firewalls with
  | .error _ => []
  | .ok rules => rules.flatMap (firewallRuleFinding project_id)

/-- Modelled from the spec: the "full intersection of matched sensitive
ports" of a rule — every sensitive port permitted by ANY tcp/udp
allow-entry of the rule.  This is the quantity the spec says the finding
description reports; it is compared against what the code actually puts in
the description. -/
def matchedSensitivePorts (rule : FirewallRule) : List String :=
  (rule.allowed.filter (fun a =>
    lowerStr a.ip_protocol == "tcp" || lowerStr a.ip_protocol == "udp")).flatMap
    (fun a => portIntersection a.ports)

/-- C2 counterexample: an enabled ingress rule open to 0.0.0.0/0 with TWO
matching allow-entries (`tcp [22]` and `udp [3389]`) yields one finding whose
description mentions only port 22 — it does not report the full intersection
of matched sensitive ports, which also contains 3389 (the loop breaks after
the first matching allow-entry). -/
theorem c2_full_intersection_counterexample :
    ((check_firewall_rules "proj-1"
      (.ok [⟨"fw-multi", Direction.INGRESS, false, ["0.0.0.0/0"],
        [⟨"tcp", ["22"]⟩, ⟨"udp", ["3389"]⟩]⟩])).map
      (fun f => strContainsSub f.finding_description "3389")) = [false] ∧
    "3389" ∈ matchedSensitivePorts
      ⟨"fw-multi", Direction.INGRESS, false, ["0.0.0.0/0"],
        [⟨"tcp", ["22"]⟩, ⟨"udp", ["3389"]⟩]⟩ := by
  exact ⟨by decide, by decide⟩

/-- C2 amended: every firewall rule yields at most one finding even when
several allow-entries match; the finding's description reports exactly the
sensitive ports of the FIRST matching allow-entry (ports matched only by
later allow-entries are omitted); in particular the enabled ingress rule
with `sourceRanges=[0.0.0.0/0]`, `allowed=[{tcp, [22, 80]}]` yields one
finding whose description mentions port 22 but not 80. -/
theorem c2_firewall_rule_amended :
    (∀ project_id rule, (firewallRuleFinding project_id rule).length ≤ 1) ∧
    ((check_firewall_rules "proj-1"
      (.ok [⟨"fw-a", Direction.INGRESS, false, ["0.0.0.0/0"],
        [⟨"tcp", ["22", "80"]⟩]⟩])).map
      (fun f => (strContainsSub f.finding_description "22",
                 strContainsSub f.finding_description "80"))) = [(true, false)] ∧
    (∀ project_id rule a p, matchingAllowed rule.allowed = some a →
      p ∈ ports_to_check →
      ∀ f ∈ firewallRuleFinding project_id rule,
        (strContainsSub f.finding_description p = true ↔ p ∈ a.ports)) := by
  refine ⟨?_, by decide, ?_⟩
  · intro project_id rule
    unfold firewallRuleFinding
    split
    · split <;> simp
    · simp
  · intro project_id rule a p ha hp f hf
    unfold firewallRuleFinding at hf
    split at hf
    · rw [ha] at hf
      simp only [List.mem_singleton] at hf
      subst hf
      have hc : ∀ q : String, (q ∈ a.ports) ↔ (a.ports.contains q = true) := by
        intro q; simp
      fin_cases hp <;>
        rw [hc] <;>
          cases hb22 : a.ports.contains "22" <;>
            cases hb38 : a.ports.contains "3389" <;>
              · simp only [portIntersection, ports_to_check, List.filter_cons,
                  List.filter_nil, hb22, hb38]
                decide
    · simp at hf

/-- C2 amended witness: the description-content conjunct applied at a
concrete matching rule and port. -/
theorem c2_firewall_rule_amended_witness :
    strContainsSub
      ((firewallRuleFinding "proj-1"
        ⟨"fw-a", Direction.INGRESS, false, ["0.0.0.0/0"],
          [⟨"tcp", ["22", "80"]⟩]⟩).headD
        ⟨"", "", "", "", ""⟩).finding_description "22" = true :=
  (c2_firewall_rule_amended.2.2 "proj-1"
    ⟨"fw-a", Direction.INGRESS, false, ["0.0.0.0/0"], [⟨"tcp", ["22", "80"]⟩]⟩
    ⟨"tcp", ["22", "80"]⟩ "22" (by decide) (by decide) _ (by decide)).mpr (by decide)

/-- Character-level prefix test (Python `str.startswith`, and the anchored
literal part of a regex match). -/
def strStartsWith (s lit : String) : Bool :=
  lit.toList.isPrefixOf s.toList

/-- Character-level suffix test (Python `str.endswith`, and a `.*<lit>$`
regex tail). -/
def strEndsWith (s suf : String) : Bool :=
  suf.toList.isSuffixOf s.toList

/-- Drop the first `n` characters of a string. -/
def strDropL (s : String) (n : Nat) : String :=
  String.mk (s.toList.drop n)

/-- Python `member.split(":", 1)` on the character list: split at the FIRST
colon; `none` when the string has no colon (in the Python source the
two-variable unpacking then raises ValueError). -/
def splitColonL : List Char → Option (List Char × List Char)
  | [] => none
  | c :: cs =>
    if c == ':' then some ([], cs)
    else
      match splitColonL cs with
      | none => none
      | some (l, r) => some (c :: l, r)

/-- String wrapper for `splitColonL`. -/
def splitColon (s : String) : Option (String × String) :=
  match splitColonL s.toList with
  | none => none
  | some (l, r) => some (String.mk l, String.mk r)

/-- The purely literal prefix alternatives of `default_sa_pattern`
(checks.py lines 312-314). -/
def defaultSaLiteralAlts : List String :=
  ["service-", "gcp-sa-", "gae-api-proxy@", "firebase-", "cloud-ml-service@",
   "container-engine-robot@", "dataproc-agent@", "sourcerepo-service-agent@",
   "cloud-filer-agent@", "cloud-tasks-producer@",
   "cloud-tasks-appengine-requester@", "cloudscheduler-service-agent@",
   "endpoints-service-agent@", "remotebuildexecution-agent@",
   "secretmanager-service-agent@", "stackdriver-service-agent@",
   "websecurityscanner-service-agent@"]

/-- One `\d+<lit>` alternative of `default_sa_pattern` followed by the
common `.*\.gserviceaccount\.com$` tail.  In both uses `lit` starts with a
non-digit ("-" or "@"), so the greedy digit run of `\d+` is forced: it is
exactly the maximal leading digit run. -/
def digitAltRest (lit : String) (s : String) : Bool :=
  let ds := s.toList.takeWhile Char.isDigit
  let rest := String.mk (s.toList.dropWhile Char.isDigit)
  !ds.isEmpty && strStartsWith rest lit &&
    strEndsWith (strDropL rest lit.length) ".gserviceaccount.com"

/-- `default_sa_pattern.match(member_id)` (checks.py lines 312-314):
`^(alt1|alt2|...).*\.gserviceaccount\.com$` — some alternative consumes a
prefix and the remainder ends with ".gserviceaccount.com" (`.` is modelled
as any character; member ids contain no newline).  No two alternatives can
match the same string with different remainders, so the disjunction below
is exact. -/
def default_sa_match (s : String) : Bool :=
  (defaultSaLiteralAlts.any (fun lit =>
    strStartsWith s lit &&
    strEndsWith (strDropL s lit.length) ".gserviceaccount.com")) ||
  digitAltRest "-compute@" s ||
  digitAltRest "@cloudbuild.gserviceaccount.com" s

/-- `google_managed_sa_pattern.match(member_id)` (checks.py line 316):
`^service-\d+@gcp-sa-.*\.iam\.gserviceaccount\.com$`; after `\d+` comes
"@", a non-digit, so the digit run is again forced. -/
def google_managed_sa_match (s : String) : Bool :=
  strStartsWith s "service-" &&
  (let rest := strDropL s 8
   let ds := rest.toList.takeWhile Char.isDigit
   let rest2 := String.mk (rest.toList.dropWhile Char.isDigit)
   !ds.isEmpty && strStartsWith rest2 "@gcp-sa-" &&
     strEndsWith (strDropL rest2 8) ".iam.gserviceaccount.com")

/-- `primitive_roles` (checks.py line 309). -/
def primitive_roles : List String := ["roles/owner", "roles/editor", "roles/viewer"]

/-- The member test of checks.py lines 334-342: a plain user principal, or a
service-account principal matching neither allow-list pattern. -/
def qualifies (member_type member_id : String) : Bool :=
  member_type == "user" ||
  (member_type == "serviceAccount" &&
   !default_sa_match member_id && !google_managed_sa_match member_id)

/-- A member qualifies for a finding (split succeeds and the parts pass
`qualifies`). -/
def qualifiesMember (m : String) : Bool :=
  match splitColon m with
  | none => false
  | some (mt, mid) => qualifies mt mid

/-- The member loop of `check_iam_bindings` (checks.py lines 331-350) for
one primitive-role binding; `none` models the uncaught ValueError raised by
`member.split(":", 1)` unpacking when a member has no colon. -/
def memberFindings (project_id role : String) : List String → Option (List Finding)
  | [] => some []
  | m :: rest =>
    match splitColon m with
    | none => none
    | some (mt, mid) =>
      let here : List Finding :=
        if qualifies mt mid then
          [⟨"IAMBinding", m,
            "Primitive role \x27" ++ role ++ "\x27 assigned directly to \x27" ++
              mt ++ "\x27.",
            "NonCompliant", project_id⟩]
        else []
      match memberFindings project_id role rest with
      | none => none
      | some fs => some (here ++ fs)

/-- The binding loop of `check_iam_bindings` (checks.py lines 328-350):
non-primitive roles are skipped entirely (their members are never split);
a `none` from any binding aborts the whole loop. -/
def bindingFindings (project_id : String) : List Binding → Option (List Finding)
  | [] => some []
  | b :: rest =>
    match (if primitive_roles.contains b.role then
             memberFindings project_id b.role b.members
           else some []) with
    | none => none
    | some h =>
      match bindingFindings project_id rest with
      | none => none
      | some t => some (h ++ t)

/-- `check_iam_bindings` (checks.py lines 296-362): a policy fetch error or
ANY exception inside the loop (including the ValueError from a colonless
member) makes the function return the empty list, discarding the findings
accumulated so far. -/
def check_iam_bindings (project_id : String)
    (policy : Except Unit (List Binding)) : List Finding :=
  match policy with
  | .error _ => []
  | .ok bindings => (bindingFindings project_id bindings).getD []

/-- A colonless member anywhere in a primitive-role binding's member list
makes the member loop raise (return `none`). -/
theorem memberFindings_none_of_colonless (project_id role : String)
    (members : List String) (m : String) (hm : m ∈ members)
    (hsplit : splitColon m = none) :
    memberFindings project_id role members = none := by
  induction members with
  | nil => cases hm
  | cons m0 rest ih =>
    rcases List.mem_cons.mp hm with h0 | h0
    · subst h0
      simp [memberFindings, hsplit]
    · simp only [memberFindings]
      cases hs0 : splitColon m0 with
      | none => rfl
      | some p =>
        obtain ⟨mt, mid⟩ := p
        rw [ih h0]

/-- A `none` from the member loop of any primitive-role binding aborts the
whole binding loop. -/
theorem bindingFindings_none_of_member (project_id : String)
    (bindings : List Binding) (b : Binding) (hb : b ∈ bindings)
    (hrole : primitive_roles.contains b.role = true)
    (hnone : memberFindings project_id b.role b.members = none) :
    bindingFindings project_id bindings = none := by
  induction bindings with
  | nil => cases hb
  | cons b0 rest ih =>
    rcases List.mem_cons.mp hb with h0 | h0
    · subst h0
      have hrole2 : b.role ∈ primitive_roles := by simpa using hrole
      simp [bindingFindings, hrole2, hnone]
    · simp only [bindingFindings]
      cases hh : (if primitive_roles.contains b0.role then
          memberFindings project_id b0.role b0.members else some []) with
      | none => rfl
      | some h => rw [ih h0]

/-- C3: a primitive-role binding produces one finding per qualifying member
(the length of the member-loop output equals the count of qualifying
members), and the binding
`{role: roles/owner, members: [user:bob@example.com,
serviceAccount:123-compute@developer.gserviceaccount.com]}` yields exactly
one finding, for bob — the default compute service account matches the
`\d+-compute@` allow-list alternative and is excluded. -/
theorem c3_iam_per_member_findings :
    check_iam_bindings "proj-1"
      (.ok [⟨"roles/owner",
        ["user:bob@example.com",
         "serviceAccount:123-compute@developer.gserviceaccount.com"]⟩]) =
      [⟨"IAMBinding", "user:bob@example.com",
        "Primitive role \x27roles/owner\x27 assigned directly to \x27user\x27.",
        "NonCompliant", "proj-1"⟩] ∧
    (∀ project_id role members fs,
      memberFindings project_id role members = some fs →
      fs.length = members.countP qualifiesMember) := by
  refine ⟨by decide, ?_⟩
  intro project_id role members
  induction members with
  | nil =>
    intro fs h
    simp only [memberFindings, Option.some.injEq] at h
    simp [← h]
  | cons m rest ih =>
    intro fs h
    simp only [memberFindings] at h
    cases hsplit : splitColon m with
    | none => rw [hsplit] at h; simp at h
    | some p =>
      obtain ⟨mt, mid⟩ := p
      rw [hsplit] at h
      cases htail : memberFindings project_id role rest with
      | none => rw [htail] at h; simp at h
      | some tailfs =>
        rw [htail] at h
        simp only [Option.some.injEq] at h
        subst h
        have hq : qualifiesMember m = qualifies mt mid := by
          simp [qualifiesMember, hsplit]
        rw [List.countP_cons, ← ih tailfs htail]
        cases hqv : qualifies mt mid <;> simp [hq, hqv]

/-- C3 witness: the per-member count conjunct applied at the concrete
owner binding of the claim. -/
theorem c3_iam_per_member_findings_witness :
    ([(⟨"IAMBinding", "user:bob@example.com",
        "Primitive role \x27roles/owner\x27 assigned directly to \x27user\x27.",
        "NonCompliant", "proj-1"⟩ : Finding)]).length =
      List.countP qualifiesMember
        ["user:bob@example.com",
         "serviceAccount:123-compute@developer.gserviceaccount.com"] :=
  c3_iam_per_member_findings.2 "proj-1" "roles/owner" _ _ (by decide)

/-- C7: a primitive-role binding containing a colonless member (such as the
legal principal `allUsers`) makes the IAM check return the empty list for
the ENTIRE policy — the catch-all handler turns the ValueError from
`member.split(":", 1)` unpacking into `return []`, dropping qualifying
members of the same and of other bindings (the second conjunct shows a
policy whose other binding contains the qualifying member bob, and the
third that bob does qualify). -/
theorem c7_iam_colonless_member_drops_policy :
    (∀ project_id bindings b m,
      b ∈ bindings → primitive_roles.contains b.role = true →
      m ∈ b.members → splitColon m = none →
      check_iam_bindings project_id (.ok bindings) = []) ∧
    check_iam_bindings "proj-1"
      (.ok [⟨"roles/owner", ["user:bob@example.com"]⟩,
            ⟨"roles/viewer", ["allUsers"]⟩]) = [] ∧
    qualifiesMember "user:bob@example.com" = true := by
  refine ⟨?_, by decide, by decide⟩
  intro project_id bindings b m hb hrole hm hsplit
  show (bindingFindings project_id bindings).getD [] = []
  rw [bindingFindings_none_of_member project_id bindings b hb hrole
    (memberFindings_none_of_colonless project_id b.role b.members m hm hsplit)]
  rfl

/-- C7 witness: the universal conjunct applied at a concrete policy with a
primitive-role binding granting to `allUsers`. -/
theorem c7_iam_colonless_member_drops_policy_witness :
    check_iam_bindings "proj-1"
      (.ok [⟨"roles/owner", ["allUsers", "user:bob@example.com"]⟩]) = [] :=
  c7_iam_colonless_member_drops_policy.1 "proj-1"
    [⟨"roles/owner", ["allUsers", "user:bob@example.com"]⟩]
    ⟨"roles/owner", ["allUsers", "user:bob@example.com"]⟩ "allUsers"
    (by decide) (by decide) (by decide) (by decide)

/-- Python `zone.split("/")[-1]`: everything after the last "/" (the whole
string when it has no "/"). -/
def lastSegment (s : String) : String :=
  String.mk ((s.toList.reverse.takeWhile (fun c => c != '/')).reverse)

/-- A service account attached to a compute instance. -/
structure ServiceAccount where
  email : String
deriving DecidableEq, Repr

/-- A compute instance descriptor as read by `check_default_sa_usage`. -/
structure Instance where
  name : String
  service_accounts : List ServiceAccount
deriving DecidableEq, Repr

/-- `default_sa_suffix` (checks.py line 142). -/
def default_sa_suffix : String := "-compute@developer.gserviceaccount.com"

/-- Per-instance body of `check_default_sa_usage` (checks.py lines 152-165):
the first attached service account with a non-empty email ending in the
default suffix yields the instance's single finding (`break` after it). -/
def instanceFinding (project_id zone : String) (inst : Instance) : List Finding :=
  match inst.service_accounts.find? (fun sa =>
      !(sa.email == "") && strEndsWith sa.email default_sa_suffix) with
  | some sa =>
    [⟨"Instance", lastSegment zone ++ "/" ++ inst.name,
      "Instance uses the default Compute Engine service account (" ++ sa.email ++
        "). Consider using a dedicated service account with least privilege.",
      "NonCompliant", project_id⟩]
  | none => []

/-- `check_default_sa_usage` (checks.py lines 130-177): the aggregated list
is a sequence of (zone, instances) pairs; any listing failure returns []. -/
def check_default_sa_usage (project_id : String)
    (agg : Except Unit (List (String × List Instance))) : List Finding :=
  match agg with
  | .error _ => []
  | .ok zones => zones.flatMap (fun zr => zr.2.flatMap (instanceFinding project_id zr.1))

/-- A persistent disk descriptor (name and `disk.users`, the attached
instances). -/
structure Disk where
  name : String
  users : List String
deriving DecidableEq, Repr

/-- `compute_v1.Address.AddressType`. -/
inductive AddressType where
  | EXTERNAL
  | INTERNAL
deriving DecidableEq, Repr

/-- `compute_v1.Address.Status`. -/
inductive AddressStatus where
  | RESERVED
  | RESERVING
  | IN_USE
deriving DecidableEq, Repr

/-- A static IP address descriptor as read by `check_unused_resources`. -/
structure Address where
  name : String
  address_type : AddressType
  status : AddressStatus
  users : List String
deriving DecidableEq, Repr

/-- Per-disk body of the disk sub-check (checks.py lines 200-210). -/
def diskFinding (project_id zone : String) (disk : Disk) : List Finding :=
  if disk.users.isEmpty then
    [⟨"Disk", lastSegment zone ++ "/" ++ disk.name,
      "Persistent disk is not attached to any instance.",
      "NonCompliant", project_id⟩]
  else []

/-- The disk sub-check of `check_unused_resources` (checks.py lines
195-216): its own try/except only logs, so a listing failure contributes
nothing but does not abort the function. -/
def disk_findings (project_id : String)
    (aggDisks : Except Unit (List (String × List Disk))) : List Finding :=
  match aggDisks with
  | .error _ => []
  | .ok zones => zones.flatMap (fun zr => zr.2.flatMap (diskFinding project_id zr.1))

/-- Per-address body of the address sub-check (checks.py lines 224-237). -/
def addressFinding (project_id region : String) (address : Address) : List Finding :=
  if address.address_type == AddressType.EXTERNAL &&
      address.status == AddressStatus.RESERVED && address.users.isEmpty then
    [⟨"Address", lastSegment region ++ "/" ++ address.name,
      "Static external IP address is reserved but not associated with any resource.",
      "NonCompliant", project_id⟩]
  else []

/-- The address sub-check of `check_unused_resources` (checks.py lines
218-243), again with a log-only try/except. -/
def address_findings (project_id : String)
    (aggAddresses : Except Unit (List (String × List Address))) : List Finding :=
  match aggAddresses with
  | .error _ => []
  | .ok regions => regions.flatMap (fun rr => rr.2.flatMap (addressFinding project_id rr.1))

/-- `check_unused_resources` (checks.py lines 179-246): the concatenation of
the two independent sub-checks. -/
def check_unused_resources (project_id : String)
    (aggDisks : Except Unit (List (String × List Disk)))
    (aggAddresses : Except Unit (List (String × List Address))) : List Finding :=
  disk_findings project_id aggDisks ++ address_findings project_id aggAddresses

/-- A bucket as seen by `check_bucket_logging`: its name and the result of
`bucket.reload()`, exposing the truthiness of `bucket.logging` (`false`
models both `None` and an empty logging dict); `.error ()` models a reload
exception, which skips the bucket only. -/
structure LogBucket where
  name : String
  reload : Except Unit Bool

/-- Per-bucket body of `check_bucket_logging` (checks.py lines 263-281). -/
def logBucketFinding (project_id : String) (bucket : LogBucket) : List Finding :=
  match bucket.reload with
  | .error _ => []
  | .ok has_logging =>
    if !has_logging then
      [⟨"Bucket", bucket.name,
        "Bucket does not have access logging enabled.",
        "NonCompliant", project_id⟩]
    else []

/-- `check_bucket_logging` (checks.py lines 248-293): listing failure of any
kind returns the empty list. -/
def check_bucket_logging (project_id : String)
    (buckets : Except Unit (List LogBucket)) : List Finding :=
  match buckets with
  | .error _ => []
  | .ok bs => bs.flatMap (logBucketFinding project_id)

/-- The environment of one scan: the result of every outer listing call the
six checks make against the cloud APIs. -/
structure ScanEnv where
  buckets : Except Unit (List Bucket)
  firewalls : Except Unit (List FirewallRule)
  iam_policy : Except Unit (List Binding)
  instances : Except Unit (List (String × List Instance))
  disks : Except Unit (List (String × List Disk))
  addresses : Except Unit (List (String × List Address))
  log_buckets : Except Unit (List LogBucket)

/-- The keys of `check_functions` in dict insertion order (main.py lines
121-128); the scan loop iterates `check_functions.items()` in this order. -/
def check_registry : List String :=
  ["public_buckets", "firewall_rules", "iam_bindings", "default_sa_usage",
   "unused_resources", "bucket_logging"]

/-- Dispatch of one named check to its function (main.py line 136). -/
def runCheck (project_id : String) (env : ScanEnv) (name : String) : List Finding :=
  if name == "public_buckets" then check_public_buckets project_id env.buckets
  else if name == "firewall_rules" then check_firewall_rules project_id env.firewalls
  else if name == "iam_bindings" then check_iam_bindings project_id env.iam_policy
  else if name == "default_sa_usage" then check_default_sa_usage project_id env.instances
  else if name == "unused_resources" then
    check_unused_resources project_id env.disks env.addresses
  else if name == "bucket_logging" then check_bucket_logging project_id env.log_buckets
  else []

/-- The selection rule of main.py lines 117-133: `checks_requested` defaults
to the empty list when the request field is null; `run_all` when that list
is empty or contains "all"; otherwise a registry entry runs iff its name was
requested (unknown names are never looked up — silently ignored). -/
def selected_checks (checks_to_run : Option (List String)) : List String :=
  let checks_requested := checks_to_run.getD []
  let run_all := checks_requested.isEmpty || checks_requested.contains "all"
  if run_all then check_registry
  else check_registry.filter (fun name => checks_requested.contains name)

/-- The aggregation loop of main.py lines 130-146: `all_findings` is the
concatenation of the selected checks' results in registry order. -/
def scan_findings (project_id : String) (env : ScanEnv)
    (checks_to_run : Option (List String)) : List Finding :=
  (selected_checks checks_to_run).flatMap (runCheck project_id env)

/-- The aggregate findings depend on the environment only through the
per-check results. -/
theorem scan_findings_congr (project_id : String) (env1 env2 : ScanEnv)
    (checks_to_run : Option (List String))
    (h : ∀ name, runCheck project_id env1 name = runCheck project_id env2 name) :
    scan_findings project_id env1 checks_to_run =
      scan_findings project_id env2 checks_to_run := by
  unfold scan_findings
  rw [funext h]

set_option maxHeartbeats 1600000 in
/-- C4: every check returns the empty finding list when its listing call
fails with any error, and at scan level an errored listing is
indistinguishable from a successful empty listing — the other selected
checks still run and contribute exactly the findings they would have
contributed anyway; no listing failure ever aborts the scan. -/
theorem c4_listing_failure_fail_open :
    (∀ project_id,
      check_public_buckets project_id (.error ()) = [] ∧
      check_firewall_rules project_id (.error ()) = [] ∧
      check_iam_bindings project_id (.error ()) = [] ∧
      check_default_sa_usage project_id (.error ()) = [] ∧
      check_unused_resources project_id (.error ()) (.error ()) = [] ∧
      check_bucket_logging project_id (.error ()) = []) ∧
    (∀ (project_id : String) (env : ScanEnv) (checks_to_run : Option (List String)),
      scan_findings project_id { env with buckets := .error () } checks_to_run =
        scan_findings project_id { env with buckets := .ok [] } checks_to_run ∧
      scan_findings project_id { env with firewalls := .error () } checks_to_run =
        scan_findings project_id { env with firewalls := .ok [] } checks_to_run ∧
      scan_findings project_id { env with iam_policy := .error () } checks_to_run =
        scan_findings project_id { env with iam_policy := .ok [] } checks_to_run ∧
      scan_findings project_id { env with instances := .error () } checks_to_run =
        scan_findings project_id { env with instances := .ok [] } checks_to_run ∧
      scan_findings project_id { env with disks := .error () } checks_to_run =
        scan_findings project_id { env with disks := .ok [] } checks_to_run ∧
      scan_findings project_id { env with addresses := .error () } checks_to_run =
        scan_findings project_id { env with addresses := .ok [] } checks_to_run ∧
      scan_findings project_id { env with log_buckets := .error () } checks_to_run =
        scan_findings project_id { env with log_buckets := .ok [] } checks_to_run) := by
  constructor
  · intro project_id
    exact ⟨rfl, rfl, rfl, rfl, rfl, rfl⟩
  · intro project_id env checks_to_run
    rcases env with ⟨b, fw, ip, ins, d, a, lb⟩
    refine ⟨?_, ?_, ?_, ?_, ?_, ?_, ?_⟩ <;>
      · apply scan_findings_congr
        intro name
        unfold runCheck
        split_ifs <;> rfl

/-- Unfolding equation of `selected_checks` on a present request list. -/
theorem selected_checks_some (reqs : List String) :
    selected_checks (some reqs) =
      if reqs.isEmpty || reqs.contains "all" then check_registry
      else check_registry.filter (fun name => reqs.contains name) := rfl

/-- C5: the orchestrator runs every registered check when the requested set
is null, empty, or contains the sentinel "all"; otherwise it runs exactly
the requested names found in the registry, silently ignoring unknown names
— requesting `["public_buckets", "nonexistent_check"]` runs only
`public_buckets`. -/
theorem c5_check_selection :
    selected_checks none = check_registry ∧
    selected_checks (some []) = check_registry ∧
    (∀ reqs, "all" ∈ reqs → selected_checks (some reqs) = check_registry) ∧
    (∀ reqs name, reqs ≠ [] → "all" ∉ reqs →
      (name ∈ selected_checks (some reqs) ↔ name ∈ check_registry ∧ name ∈ reqs)) ∧
    (∀ project_id env,
      scan_findings project_id env (some ["public_buckets", "nonexistent_check"]) =
        check_public_buckets project_id env.buckets) := by
  refine ⟨rfl, rfl, ?_, ?_, ?_⟩
  · intro reqs hall
    have h : reqs.contains "all" = true := by simpa using hall
    rw [selected_checks_some, h]
    simp
  · intro reqs name hne hnall
    have h1 : reqs.isEmpty = false := by
      cases reqs with
      | nil => exact absurd rfl hne
      | cons a l => rfl
    have h2 : reqs.contains "all" = false := by simpa using hnall
    rw [selected_checks_some, h1, h2]
    simp [List.mem_filter]
  · intro project_id env
    have hsel : selected_checks (some ["public_buckets", "nonexistent_check"]) =
        ["public_buckets"] := by rfl
    unfold scan_findings
    rw [hsel]
    simp [runCheck]

/-- C5 witness: the filter conjunct applied at the concrete request of the
claim and the registry name `firewall_rules`. -/
theorem c5_check_selection_witness :
    ("firewall_rules" ∈ selected_checks (some ["public_buckets", "nonexistent_check"]) ↔
      "firewall_rules" ∈ check_registry ∧
      "firewall_rules" ∈ ["public_buckets", "nonexistent_check"]) :=
  c5_check_selection.2.2.2.1 ["public_buckets", "nonexistent_check"] "firewall_rules"
    (by decide) (by decide)

/-- C8: the two sub-checks of `check_unused_resources` run independently —
a listing failure in one leaves the other's findings exactly as they would
have been, the result is always the concatenation of the two sub-check
results, a disk yields a finding iff its attached-users list is empty, and
an address yields a finding iff it is EXTERNAL, RESERVED and has an empty
users list. -/
theorem c8_unused_resources_independent :
    (∀ project_id aggAddresses,
      check_unused_resources project_id (.error ()) aggAddresses =
        address_findings project_id aggAddresses) ∧
    (∀ project_id aggDisks,
      check_unused_resources project_id aggDisks (.error ()) =
        disk_findings project_id aggDisks) ∧
    (∀ project_id aggDisks aggAddresses,
      check_unused_resources project_id aggDisks aggAddresses =
        disk_findings project_id aggDisks ++ address_findings project_id aggAddresses) ∧
    (∀ project_id zone disk,
      diskFinding project_id zone disk ≠ [] ↔ disk.users = []) ∧
    (∀ project_id region address,
      addressFinding project_id region address ≠ [] ↔
        (address.address_type = AddressType.EXTERNAL ∧
         address.status = AddressStatus.RESERVED ∧ address.users = [])) := by
  refine ⟨?_, ?_, ?_, ?_, ?_⟩
  · intro project_id aggAddresses
    simp [check_unused_resources, disk_findings]
  · intro project_id aggDisks
    simp [check_unused_resources, address_findings]
  · intro project_id aggDisks aggAddresses
    rfl
  · intro project_id zone disk
    rcases disk with ⟨n, us⟩
    cases us <;> simp [diskFinding]
  · intro project_id region address
    rcases address with ⟨n, t, st, us⟩
    cases t <;> cases st <;> cases us <;> simp [addressFinding]

/-- `toList` distributes over string append. -/
theorem toList_append_str (a b : String) : (a ++ b).toList = a.toList ++ b.toList := by
  rcases a with ⟨la⟩
  rcases b with ⟨lb⟩
  rfl

/-- A string with a non-empty left part is non-empty. -/
theorem append_left_ne_empty (a b : String) (h : a ≠ "") : a ++ b ≠ "" := by
  intro he
  apply h
  rcases a with ⟨la⟩
  rcases b with ⟨lb⟩
  have hd : la ++ lb = ([] : List Char) := congrArg String.data he
  rcases List.append_eq_nil.mp hd with ⟨h1, h2⟩
  subst h1
  rfl

/-- A string with a non-empty right part is non-empty. -/
theorem append_right_ne_empty (a b : String) (h : b ≠ "") : a ++ b ≠ "" := by
  intro he
  apply h
  rcases a with ⟨la⟩
  rcases b with ⟨lb⟩
  have hd : la ++ lb = ([] : List Char) := congrArg String.data he
  rcases List.append_eq_nil.mp hd with ⟨h1, h2⟩
  subst h2
  rfl

/-- A list is a prefix of itself followed by anything. -/
theorem isPrefixOf_append_self (l t : List Char) : l.isPrefixOf (l ++ t) = true := by
  induction l with
  | nil => cases t <;> rfl
  | cons c cs ih => simp [List.isPrefixOf, ih]

/-- The substring scan finds an explicitly placed occurrence. -/
theorem containsSubL_append (sub pre post : List Char) :
    containsSubL sub (pre ++ (sub ++ post)) = true := by
  induction pre with
  | nil =>
    cases sub with
    | nil =>
      cases post with
      | nil => rfl
      | cons c cs => simp [containsSubL, List.isPrefixOf]
    | cons c cs => simp [containsSubL, isPrefixOf_append_self]
  | cons c cs ih => simp [containsSubL, ih]

/-- One committed row of the `compliance_findings` table (database.py lines
30-43): the store-assigned `id` and `scan_timestamp` plus the payload
columns (timestamps are modelled as clock ticks). -/
structure StoredFinding where
  id : Nat
  scan_timestamp : Nat
  gcp_project_id : String
  resource_type : String
  resource_id : String
  finding_description : String
  status : String
deriving DecidableEq, Repr

/-- A SQLAlchemy session over the table: committed rows and the adds pending
in the open transaction. -/
structure DbSession where
  rows : List StoredFinding
  pending : List Finding
deriving DecidableEq, Repr

/-- `db.add_all(db_findings)` (database.py line 125): stage the findings. -/
def add_all (s : DbSession) (findings : List Finding) : DbSession :=
  ⟨s.rows, s.pending ++ findings⟩

/-- The insert performed by a successful commit: `id` by auto-increment from
`next_id`, `scan_timestamp` by the server clock (`server_default=func.now()`). -/
def insertPending (rows : List StoredFinding) (pending : List Finding)
    (next_id now : Nat) : List StoredFinding :=
  rows ++ pending.enum.map (fun p =>
    ⟨next_id + p.1, now, p.2.gcp_project_id, p.2.resource_type, p.2.resource_id,
      p.2.finding_description, p.2.status⟩)

/-- `db.commit()`: `write` is the outcome of the underlying database write —
on success all pending rows are inserted atomically, on failure nothing is
and the error propagates. -/
def commit (s : DbSession) (write : Except String Unit) (next_id now : Nat) :
    Except String DbSession :=
  match write with
  | .ok _ => .ok ⟨insertPending s.rows s.pending next_id now, []⟩
  | .error e => .error e

/-- `db.rollback()` (database.py line 130): discard the pending adds. -/
def rollback (s : DbSession) : DbSession :=
  ⟨s.rows, []⟩

/-- `add_findings` (database.py lines 110-131): an empty batch returns
without touching the session; otherwise add_all then commit; on a commit
failure the session is rolled back and the error re-raised (the `Option
String` component). -/
def add_findings (db : DbSession) (findings : List Finding)
    (write : Except String Unit) (next_id now : Nat) : DbSession × Option String :=
  if findings.isEmpty then (db, none)
  else
    match commit (add_all db findings) write next_id now with
    | .ok s2 => (s2, none)
    | .error err => (rollback (add_all db findings), some err)

/-- The HTTP outcome of `POST /scan` (main.py lines 106-168): 202 with a
success message, or 500 whose detail is the f-string of line 167. -/
structure ScanResponse where
  http_status : Nat
  message : String
  findings_count : Option Nat
deriving DecidableEq, Repr

/-- `trigger_scan` (main.py lines 106-168): run the selected checks, store
the aggregate batch, and answer 202; any exception of the body — in this
embedding only the batch write can raise, every check being total — is
turned into a 500 response whose detail names the project.  (The Python
code skips `add_findings` when `all_findings` is empty; `add_findings`
itself also returns immediately on an empty batch, so the composition is
the same.) -/
def trigger_scan (project_id : String) (env : ScanEnv)
    (checks_to_run : Option (List String)) (db : DbSession)
    (write : Except String Unit) (next_id now : Nat) : DbSession × ScanResponse :=
  let all_findings := scan_findings project_id env checks_to_run
  match add_findings db all_findings write next_id now with
  | (db2, none) =>
    (db2, ⟨202, "Scan initiated and completed for project " ++ project_id ++ ".",
      some all_findings.length⟩)
  | (db2, some err) =>
    (db2, ⟨500, "An error occurred during the scan for project " ++ project_id ++
      ": " ++ err, none⟩)

/-- Unfolding equation of `trigger_scan`. -/
theorem trigger_scan_eq (project_id : String) (env : ScanEnv)
    (checks_to_run : Option (List String)) (db : DbSession)
    (write : Except String Unit) (next_id now : Nat) :
    trigger_scan project_id env checks_to_run db write next_id now =
      match add_findings db (scan_findings project_id env checks_to_run)
          write next_id now with
      | (db2, none) =>
        (db2, ⟨202, "Scan initiated and completed for project " ++ project_id ++ ".",
          some (scan_findings project_id env checks_to_run).length⟩)
      | (db2, some err) =>
        (db2, ⟨500, "An error occurred during the scan for project " ++ project_id ++
          ": " ++ err, none⟩) := rfl

/-- A failing write on a non-empty batch rolls the session back (committed
rows untouched, pending cleared) and re-raises. -/
theorem add_findings_failure (db : DbSession) (findings : List Finding)
    (e : String) (next_id now : Nat) (h : findings ≠ []) :
    add_findings db findings (.error e) next_id now = (⟨db.rows, []⟩, some e) := by
  cases findings with
  | nil => exact absurd rfl h
  | cons a l => rfl

/-- C6: when the final batch write fails on a non-empty findings batch, the
scan as a whole fails — the committed rows are exactly what they were before
(the transaction is rolled back, no partial insert) and the caller gets a
500 response whose detail names the project; with a succeeding write the
same scan answers 202, check-level behaviour being unaffected either way. -/
theorem c6_store_write_failure :
    ∀ (project_id e : String) (env : ScanEnv) (checks_to_run : Option (List String))
      (db : DbSession) (next_id now : Nat),
      scan_findings project_id env checks_to_run ≠ [] →
      (trigger_scan project_id env checks_to_run db (.error e) next_id now).1.rows
          = db.rows ∧
      (trigger_scan project_id env checks_to_run db
          (.error e) next_id now).2.http_status = 500 ∧
      strContainsSub
        (trigger_scan project_id env checks_to_run db (.error e) next_id now).2.message
        project_id = true ∧
      (trigger_scan project_id env checks_to_run db
          (.ok ()) next_id now).2.http_status = 202 := by
  intro project_id e env checks_to_run db next_id now hne
  have hadd := add_findings_failure db (scan_findings project_id env checks_to_run)
    e next_id now hne
  rw [trigger_scan_eq, trigger_scan_eq, hadd]
  refine ⟨rfl, rfl, ?_, ?_⟩
  · show strContainsSub
      ("An error occurred during the scan for project " ++ project_id ++ ": " ++ e)
      project_id = true
    unfold strContainsSub
    rw [toList_append_str, toList_append_str, toList_append_str,
      List.append_assoc, List.append_assoc]
    exact containsSubL_append _ _ _
  · cases hfs : scan_findings project_id env checks_to_run with
    | nil => exact absurd hfs hne
    | cons a l => rfl

/-- C6 witness: the theorem applied at a one-public-bucket scan whose batch
write fails. -/
theorem c6_store_write_failure_witness :
    (trigger_scan "proj-1"
      ⟨.ok [⟨"bucket-a", .ok [⟨"roles/storage.objectViewer", ["allUsers"]⟩]⟩],
        .ok [], .ok [], .ok [], .ok [], .ok [], .ok []⟩
      none ⟨[], []⟩ (.error "db down") 1 7).1.rows = [] ∧
    (trigger_scan "proj-1"
      ⟨.ok [⟨"bucket-a", .ok [⟨"roles/storage.objectViewer", ["allUsers"]⟩]⟩],
        .ok [], .ok [], .ok [], .ok [], .ok [], .ok []⟩
      none ⟨[], []⟩ (.error "db down") 1 7).2.http_status = 500 :=
  have h := c6_store_write_failure "proj-1" "db down"
    ⟨.ok [⟨"bucket-a", .ok [⟨"roles/storage.objectViewer", ["allUsers"]⟩]⟩],
      .ok [], .ok [], .ok [], .ok [], .ok [], .ok []⟩
    none ⟨[], []⟩ 1 7 (by decide)
  ⟨h.1, h.2.1⟩

/-- The ORDER BY of database.py line 148: `scan_timestamp DESC, id ASC`
("a comes no later than b"). -/
def findingOrder (a b : StoredFinding) : Prop :=
  b.scan_timestamp < a.scan_timestamp ∨
    (a.scan_timestamp = b.scan_timestamp ∧ a.id ≤ b.id)

instance : DecidableRel findingOrder := fun a b => by
  unfold findingOrder
  infer_instance

instance : IsTotal StoredFinding findingOrder := ⟨by
  intro a b
  unfold findingOrder
  omega⟩

instance : IsTrans StoredFinding findingOrder := ⟨by
  intro a b c
  unfold findingOrder
  omega⟩

/-- `get_findings` (database.py lines 133-150): the Python truthiness test
`if project_id:` applies the WHERE clause only for a non-None, NON-EMPTY
project id; then ORDER BY `scan_timestamp DESC, id ASC` (modelled as an
insertion sort — SQL promises only the resulting order, and row ids are
unique, making the order total). -/
def get_findings (rows : List StoredFinding) (project_id : Option String) :
    List StoredFinding :=
  let filtered := match project_id with
    | none => rows
    | some p =>
      if p == "" then rows
      else rows.filter (fun r => r.gcp_project_id == p)
  List.insertionSort findingOrder filtered

/-- C9 counterexample: supplying the filter `some ""` (an empty project-id
string, which Python's `if project_id:` treats as falsy) does NOT restrict
the result to project "": a stored finding of project "proj-1" is returned
unchanged. -/
theorem c9_empty_filter_counterexample :
    get_findings [⟨1, 0, "proj-1", "Bucket", "b", "d", "NonCompliant"⟩] (some "") =
      [⟨1, 0, "proj-1", "Bucket", "b", "d", "NonCompliant"⟩] ∧
    ("proj-1" : String) ≠ "" := by
  exact ⟨by decide, by decide⟩

/-- C9 amended: `get_findings` returns the stored findings ordered by scan
timestamp descending then insertion id ascending, restricted to the given
project when a NON-EMPTY filter is supplied; no filter, and the edge case of
an empty-string filter, both return all findings in the same order. -/
theorem c9_query_order_amended :
    (∀ rows, (get_findings rows none).Perm rows ∧
      List.Sorted findingOrder (get_findings rows none)) ∧
    (∀ rows p, p ≠ "" →
      (get_findings rows (some p)).Perm
        (rows.filter (fun r => r.gcp_project_id == p)) ∧
      List.Sorted findingOrder (get_findings rows (some p)) ∧
      ∀ r ∈ get_findings rows (some p), r.gcp_project_id = p) ∧
    (∀ rows, get_findings rows (some "") = get_findings rows none) := by
  refine ⟨?_, ?_, ?_⟩
  · intro rows
    exact ⟨List.perm_insertionSort findingOrder rows,
      List.sorted_insertionSort findingOrder rows⟩
  · intro rows p hp
    have hb : (p == "") = false := by simpa using hp
    have hform : get_findings rows (some p) =
        List.insertionSort findingOrder
          (rows.filter (fun r => r.gcp_project_id == p)) := by
      show List.insertionSort findingOrder
          (if p == "" then rows else rows.filter (fun r => r.gcp_project_id == p)) =
        List.insertionSort findingOrder (rows.filter (fun r => r.gcp_project_id == p))
      rw [hb]
      rfl
    refine ⟨?_, ?_, ?_⟩
    · rw [hform]
      exact List.perm_insertionSort findingOrder _
    · rw [hform]
      exact List.sorted_insertionSort findingOrder _
    · intro r hr
      rw [hform] at hr
      have hmem : r ∈ rows.filter (fun r => r.gcp_project_id == p) :=
        (List.perm_insertionSort findingOrder _).mem_iff.mp hr
      have := List.of_mem_filter hmem
      simpa using this
  · intro rows
    rfl

/-- C9 amended witness: the non-empty-filter conjunct applied at a concrete
two-row store, checking the descending-timestamp order. -/
theorem c9_query_order_amended_witness :
    (get_findings
      [⟨1, 0, "proj-1", "Bucket", "b", "d", "NonCompliant"⟩,
       ⟨2, 5, "proj-1", "Disk", "z/d", "d2", "NonCompliant"⟩,
       ⟨3, 9, "proj-2", "Bucket", "c", "d3", "NonCompliant"⟩] (some "proj-1")).Perm
      ([⟨1, 0, "proj-1", "Bucket", "b", "d", "NonCompliant"⟩,
        ⟨2, 5, "proj-1", "Disk", "z/d", "d2", "NonCompliant"⟩,
        ⟨3, 9, "proj-2", "Bucket", "c", "d3", "NonCompliant"⟩].filter
        (fun r => r.gcp_project_id == "proj-1")) :=
  (c9_query_order_amended.2.1
    [⟨1, 0, "proj-1", "Bucket", "b", "d", "NonCompliant"⟩,
     ⟨2, 5, "proj-1", "Disk", "z/d", "d2", "NonCompliant"⟩,
     ⟨3, 9, "proj-2", "Bucket", "c", "d3", "NonCompliant"⟩] "proj-1" (by decide)).1

/-- The data-model invariant (spec section 3): the required fields are
non-empty and the status is the fixed value every rule writes. -/
def FindingInv (f : Finding) : Prop :=
  f.gcp_project_id ≠ "" ∧ f.resource_type ≠ "" ∧ f.resource_id ≠ "" ∧
  f.finding_description ≠ "" ∧ f.status = "NonCompliant"

/-- A member that splits at a colon is non-empty. -/
theorem splitColon_ne_empty (m mt mid : String)
    (h : splitColon m = some (mt, mid)) : m ≠ "" := by
  intro he
  subst he
  simp [splitColon, splitColonL] at h

/-- The firewall description always starts with its literal prefix. -/
theorem firewallDescription_ne_empty (matched : List String) :
    firewallDescription matched ≠ "" :=
  append_left_ne_empty _ _ (append_left_ne_empty _ _ (by decide))

/-- Per-bucket public-access findings satisfy the invariant. -/
theorem bucketPublicFinding_inv (project_id : String) (b : Bucket)
    (hpid : project_id ≠ "") (hname : b.name ≠ "") :
    ∀ f ∈ bucketPublicFinding project_id b, FindingInv f := by
  intro f hf
  unfold bucketPublicFinding at hf
  split at hf
  · simp at hf
  · dsimp only at hf
    split at hf
    · simp only [List.mem_singleton] at hf
      subst hf
      unfold FindingInv
      dsimp only
      exact ⟨hpid, by decide, hname, by decide, rfl⟩
    · simp at hf

/-- Per-rule firewall findings satisfy the invariant. -/
theorem firewallRuleFinding_inv (project_id : String) (rule : FirewallRule)
    (hpid : project_id ≠ "") (hname : rule.name ≠ "") :
    ∀ f ∈ firewallRuleFinding project_id rule, FindingInv f := by
  intro f hf
  unfold firewallRuleFinding at hf
  split at hf
  · split at hf
    · simp only [List.mem_singleton] at hf
      subst hf
      unfold FindingInv
      dsimp only
      exact ⟨hpid, by decide, hname, firewallDescription_ne_empty _, rfl⟩
    · simp at hf
  · simp at hf

/-- Per-instance default-service-account findings satisfy the invariant. -/
theorem instanceFinding_inv (project_id zone : String) (inst : Instance)
    (hpid : project_id ≠ "") :
    ∀ f ∈ instanceFinding project_id zone inst, FindingInv f := by
  intro f hf
  unfold instanceFinding at hf
  split at hf
  · simp only [List.mem_singleton] at hf
    subst hf
    unfold FindingInv
    dsimp only
    refine ⟨hpid, by decide, ?_, ?_, rfl⟩
    · exact append_left_ne_empty _ _ (append_right_ne_empty _ _ (by decide))
    · exact append_left_ne_empty _ _ (append_left_ne_empty _ _ (by decide))
  · simp at hf

/-- Per-disk findings satisfy the invariant. -/
theorem diskFinding_inv (project_id zone : String) (disk : Disk)
    (hpid : project_id ≠ "") :
    ∀ f ∈ diskFinding project_id zone disk, FindingInv f := by
  intro f hf
  unfold diskFinding at hf
  split at hf
  · simp only [List.mem_singleton] at hf
    subst hf
    unfold FindingInv
    dsimp only
    exact ⟨hpid, by decide,
      append_left_ne_empty _ _ (append_right_ne_empty _ _ (by decide)),
      by decide, rfl⟩
  · simp at hf

/-- Per-address findings satisfy the invariant. -/
theorem addressFinding_inv (project_id region : String) (address : Address)
    (hpid : project_id ≠ "") :
    ∀ f ∈ addressFinding project_id region address, FindingInv f := by
  intro f hf
  unfold addressFinding at hf
  split at hf
  · simp only [List.mem_singleton] at hf
    subst hf
    unfold FindingInv
    dsimp only
    exact ⟨hpid, by decide,
      append_left_ne_empty _ _ (append_right_ne_empty _ _ (by decide)),
      by decide, rfl⟩
  · simp at hf

/-- Per-bucket logging findings satisfy the invariant. -/
theorem logBucketFinding_inv (project_id : String) (b : LogBucket)
    (hpid : project_id ≠ "") (hname : b.name ≠ "") :
    ∀ f ∈ logBucketFinding project_id b, FindingInv f := by
  intro f hf
  unfold logBucketFinding at hf
  split at hf
  · simp at hf
  · split at hf
    · simp only [List.mem_singleton] at hf
      subst hf
      unfold FindingInv
      dsimp only
      exact ⟨hpid, by decide, hname, by decide, rfl⟩
    · simp at hf

/-- Findings of the IAM member loop satisfy the invariant. -/
theorem memberFindings_inv (project_id role : String) (members : List String)
    (hpid : project_id ≠ "") :
    ∀ fs, memberFindings project_id role members = some fs →
      ∀ f ∈ fs, FindingInv f := by
  induction members with
  | nil =>
    intro fs h
    simp only [memberFindings, Option.some.injEq] at h
    subst h
    simp
  | cons m rest ih =>
    intro fs h
    simp only [memberFindings] at h
    cases hsplit : splitColon m with
    | none => rw [hsplit] at h; simp at h
    | some p =>
      obtain ⟨mt, mid⟩ := p
      rw [hsplit] at h
      cases htail : memberFindings project_id role rest with
      | none => rw [htail] at h; simp at h
      | some tailfs =>
        rw [htail] at h
        simp only [Option.some.injEq] at h
        subst h
        intro f hf
        rw [List.mem_append] at hf
        rcases hf with hf | hf
        · split at hf
          · simp only [List.mem_singleton] at hf
            subst hf
            unfold FindingInv
            dsimp only
            refine ⟨hpid, by decide, splitColon_ne_empty m mt mid hsplit, ?_, rfl⟩
            exact append_left_ne_empty _ _ (append_left_ne_empty _ _
              (append_left_ne_empty _ _ (append_left_ne_empty _ _ (by decide))))
          · simp at hf
        · exact ih tailfs htail f hf

/-- Findings of the IAM binding loop satisfy the invariant. -/
theorem bindingFindings_inv (project_id : String) (bindings : List Binding)
    (hpid : project_id ≠ "") :
    ∀ fs, bindingFindings project_id bindings = some fs →
      ∀ f ∈ fs, FindingInv f := by
  induction bindings with
  | nil =>
    intro fs h
    simp only [bindingFindings, Option.some.injEq] at h
    subst h
    simp
  | cons b rest ih =>
    intro fs h
    simp only [bindingFindings] at h
    cases hh : (if primitive_roles.contains b.role then
        memberFindings project_id b.role b.members else some []) with
    | none => rw [hh] at h; simp at h
    | some hfs =>
      rw [hh] at h
      cases ht : bindingFindings project_id rest with
      | none => rw [ht] at h; simp at h
      | some tfs =>
        rw [ht] at h
        simp only [Option.some.injEq] at h
        subst h
        intro f hf
        rw [List.mem_append] at hf
        rcases hf with hf | hf
        · cases hrole : primitive_roles.contains b.role with
          | true =>
            rw [hrole, if_pos rfl] at hh
            exact memberFindings_inv project_id b.role b.members hpid hfs hh f hf
          | false =>
            rw [hrole] at hh
            simp only [Bool.false_eq_true, if_false, Option.some.injEq] at hh
            subst hh
            cases hf
        · exact ih tfs ht f hf

/-- Well-formedness of a bucket listing: non-empty bucket names (the name
becomes the finding's `resource_id` verbatim). -/
def namesOkBuckets : Except Unit (List Bucket) → Prop
  | .error _ => True
  | .ok bs => ∀ b ∈ bs, b.name ≠ ""

/-- Well-formedness of a firewall listing: non-empty rule names. -/
def namesOkFirewalls : Except Unit (List FirewallRule) → Prop
  | .error _ => True
  | .ok rs => ∀ r ∈ rs, r.name ≠ ""

/-- Well-formedness of the logging-check bucket listing. -/
def namesOkLogBuckets : Except Unit (List LogBucket) → Prop
  | .error _ => True
  | .ok bs => ∀ b ∈ bs, b.name ≠ ""

/-- Well-formed descriptors: the three listings whose bare resource name is
used as `resource_id` carry non-empty names.  Zonal and regional resources
embed a "/" in their id and IAM members a ":", so those ids are non-empty
for ANY descriptor. -/
def WellFormedEnv (env : ScanEnv) : Prop :=
  namesOkBuckets env.buckets ∧ namesOkFirewalls env.firewalls ∧
  namesOkLogBuckets env.log_buckets

/-- All findings of the public-bucket check satisfy the invariant. -/
theorem check_public_buckets_inv (project_id : String)
    (buckets : Except Unit (List Bucket)) (hpid : project_id ≠ "")
    (h : namesOkBuckets buckets) :
    ∀ f ∈ check_public_buckets project_id buckets, FindingInv f := by
  intro f hf
  cases buckets with
  | error e => simp [check_public_buckets] at hf
  | ok bs =>
    have h2 : ∀ b ∈ bs, b.name ≠ "" := h
    simp only [check_public_buckets] at hf
    rw [List.mem_flatMap] at hf
    obtain ⟨b, hb, hfb⟩ := hf
    exact bucketPublicFinding_inv project_id b hpid (h2 b hb) f hfb

/-- All findings of the firewall check satisfy the invariant. -/
theorem check_firewall_rules_inv (project_id : String)
    (firewalls : Except Unit (List FirewallRule)) (hpid : project_id ≠ "")
    (h : namesOkFirewalls firewalls) :
    ∀ f ∈ check_firewall_rules project_id firewalls, FindingInv f := by
  intro f hf
  cases firewalls with
  | error e => simp [check_firewall_rules] at hf
  | ok rs =>
    have h2 : ∀ r ∈ rs, r.name ≠ "" := h
    simp only [check_firewall_rules] at hf
    rw [List.mem_flatMap] at hf
    obtain ⟨r, hr, hfr⟩ := hf
    exact firewallRuleFinding_inv project_id r hpid (h2 r hr) f hfr

/-- All findings of the IAM check satisfy the invariant. -/
theorem check_iam_bindings_inv (project_id : String)
    (policy : Except Unit (List Binding)) (hpid : project_id ≠ "") :
    ∀ f ∈ check_iam_bindings project_id policy, FindingInv f := by
  intro f hf
  cases policy with
  | error e => simp [check_iam_bindings] at hf
  | ok bindings =>
    simp only [check_iam_bindings] at hf
    cases hbf : bindingFindings project_id bindings with
    | none => rw [hbf] at hf; simp at hf
    | some fs =>
      rw [hbf] at hf
      simp only [Option.getD_some] at hf
      exact bindingFindings_inv project_id bindings hpid fs hbf f hf

/-- All findings of the default-service-account check satisfy the
invariant. -/
theorem check_default_sa_usage_inv (project_id : String)
    (agg : Except Unit (List (String × List Instance))) (hpid : project_id ≠ "") :
    ∀ f ∈ check_default_sa_usage project_id agg, FindingInv f := by
  intro f hf
  cases agg with
  | error e => simp [check_default_sa_usage] at hf
  | ok zones =>
    simp only [check_default_sa_usage] at hf
    rw [List.mem_flatMap] at hf
    obtain ⟨zr, hz, hf2⟩ := hf
    rw [List.mem_flatMap] at hf2
    obtain ⟨inst, hi, hf3⟩ := hf2
    exact instanceFinding_inv project_id zr.1 inst hpid f hf3

/-- All findings of the disk sub-check satisfy the invariant. -/
theorem disk_findings_inv (project_id : String)
    (aggDisks : Except Unit (List (String × List Disk))) (hpid : project_id ≠ "") :
    ∀ f ∈ disk_findings project_id aggDisks, FindingInv f := by
  intro f hf
  cases aggDisks with
  | error e => simp [disk_findings] at hf
  | ok zones =>
    simp only [disk_findings] at hf
    rw [List.mem_flatMap] at hf
    obtain ⟨zr, hz, hf2⟩ := hf
    rw [List.mem_flatMap] at hf2
    obtain ⟨d, hd, hf3⟩ := hf2
    exact diskFinding_inv project_id zr.1 d hpid f hf3

/-- All findings of the address sub-check satisfy the invariant. -/
theorem address_findings_inv (project_id : String)
    (aggAddresses : Except Unit (List (String × List Address)))
    (hpid : project_id ≠ "") :
    ∀ f ∈ address_findings project_id aggAddresses, FindingInv f := by
  intro f hf
  cases aggAddresses with
  | error e => simp [address_findings] at hf
  | ok regions =>
    simp only [address_findings] at hf
    rw [List.mem_flatMap] at hf
    obtain ⟨rr, hr, hf2⟩ := hf
    rw [List.mem_flatMap] at hf2
    obtain ⟨a, ha, hf3⟩ := hf2
    exact addressFinding_inv project_id rr.1 a hpid f hf3

/-- All findings of the unused-resources check satisfy the invariant. -/
theorem check_unused_resources_inv (project_id : String)
    (aggDisks : Except Unit (List (String × List Disk)))
    (aggAddresses : Except Unit (List (String × List Address)))
    (hpid : project_id ≠ "") :
    ∀ f ∈ check_unused_resources project_id aggDisks aggAddresses, FindingInv f := by
  intro f hf
  unfold check_unused_resources at hf
  rw [List.mem_append] at hf
  rcases hf with hf | hf
  · exact disk_findings_inv project_id aggDisks hpid f hf
  · exact address_findings_inv project_id aggAddresses hpid f hf

/-- All findings of the bucket-logging check satisfy the invariant. -/
theorem check_bucket_logging_inv (project_id : String)
    (buckets : Except Unit (List LogBucket)) (hpid : project_id ≠ "")
    (h : namesOkLogBuckets buckets) :
    ∀ f ∈ check_bucket_logging project_id buckets, FindingInv f := by
  intro f hf
  cases buckets with
  | error e => simp [check_bucket_logging] at hf
  | ok bs =>
    have h2 : ∀ b ∈ bs, b.name ≠ "" := h
    simp only [check_bucket_logging] at hf
    rw [List.mem_flatMap] at hf
    obtain ⟨b, hb, hfb⟩ := hf
    exact logBucketFinding_inv project_id b hpid (h2 b hb) f hfb

/-- All findings of any dispatched check satisfy the invariant. -/
theorem runCheck_inv (project_id : String) (env : ScanEnv) (name : String)
    (hpid : project_id ≠ "") (hwf : WellFormedEnv env) :
    ∀ f ∈ runCheck project_id env name, FindingInv f := by
  intro f hf
  obtain ⟨hb, hfw, hlb⟩ := hwf
  unfold runCheck at hf
  split_ifs at hf
  · exact check_public_buckets_inv project_id env.buckets hpid hb f hf
  · exact check_firewall_rules_inv project_id env.firewalls hpid hfw f hf
  · exact check_iam_bindings_inv project_id env.iam_policy hpid f hf
  · exact check_default_sa_usage_inv project_id env.instances hpid f hf
  · exact check_unused_resources_inv project_id env.disks env.addresses hpid f hf
  · exact check_bucket_logging_inv project_id env.log_buckets hpid hlb f hf
  · simp at hf

/-- C10: every finding an entire scan produces on well-formed descriptors
(non-empty project id and resource names) has non-empty `gcp_project_id`,
`resource_type`, `resource_id` and `finding_description`, and status exactly
"NonCompliant" — the fixed status value all six rules attach uniformly. -/
theorem c10_finding_invariant :
    ∀ (project_id : String) (env : ScanEnv) (checks_to_run : Option (List String)),
      project_id ≠ "" → WellFormedEnv env →
      ∀ f ∈ scan_findings project_id env checks_to_run, FindingInv f := by
  intro project_id env checks_to_run hpid hwf f hf
  unfold scan_findings at hf
  rw [List.mem_flatMap] at hf
  obtain ⟨name, hn, hfn⟩ := hf
  exact runCheck_inv project_id env name hpid hwf f hfn

/-- C10 witness: the invariant of the one finding of a concrete full scan
with a public bucket. -/
theorem c10_finding_invariant_witness :
    FindingInv ⟨"Bucket", "bucket-a",
      "Bucket is publicly accessible via \x27allUsers\x27 or \x27allAuthenticatedUsers\x27.",
      "NonCompliant", "proj-1"⟩ :=
  c10_finding_invariant "proj-1"
    ⟨.ok [⟨"bucket-a", .ok [⟨"roles/storage.objectViewer", ["allUsers"]⟩]⟩],
      .ok [], .ok [], .ok [], .ok [], .ok [], .ok []⟩
    none (by decide)
    ⟨(show ∀ b ∈ [(⟨"bucket-a", .ok [⟨"roles/storage.objectViewer", ["allUsers"]⟩]⟩ : Bucket)], b.name ≠ "" by decide),
     (show ∀ r ∈ ([] : List FirewallRule), r.name ≠ "" by decide),
     (show ∀ b ∈ ([] : List LogBucket), b.name ≠ "" by decide)⟩
    _ (by decide)
